import Mathlib

/-!
Verification of the yabtorrent download-manager core against its
natural-language specification.  C strings are modelled as NUL-free lists of
byte values (0 < b < 256); C `char` arithmetic is modelled on the unsigned
byte value of each character (for the url codec the signed-shift expressions
of the source agree with the unsigned ones after the `& 15` mask, as noted at
each definition).  Stateful code is modelled by explicit state passing.
-/

set_option maxRecDepth 4000

/-! ## URL codec (source file: the unnamed url-encode unit) -/

/-- Byte-level model of ctype isdigit restricted to ASCII, as used by the
source in the C locale. -/
def isdigitB (c : Nat) : Bool := 48 ≤ c && c ≤ 57

/-- Byte-level model of ctype isalnum restricted to ASCII, as used by the
source in the C locale. -/
def isalnumB (c : Nat) : Bool :=
  (48 ≤ c && c ≤ 57) || (65 ≤ c && c ≤ 90) || (97 ≤ c && c ≤ 122)

/-- Byte-level model of ctype tolower restricted to ASCII. -/
def tolowerB (c : Nat) : Nat := if 65 ≤ c && c ≤ 90 then c + 32 else c

/-- from_hex of the source: digit characters map to their value, anything
else goes through tolower and is offset from the letter a.  Modelled on
unsigned byte values (Nat subtraction truncates where the C result would be
negative; the round-trip theorem only evaluates it on hex digits, where the
two agree). -/
def from_hex (ch : Nat) : Nat :=
  if isdigitB ch then ch - 48 else tolowerB ch - 97 + 10

/-- to_hex of the source: index into the literal uppercase hex table with
code & 15. -/
def to_hex (code : Nat) : Nat :=
  [48, 49, 50, 51, 52, 53, 54, 55, 56, 57, 65, 66, 67, 68, 69, 70].getD
    (code &&& 15) 48

/-- url_encode of the source: alphanumeric bytes pass through, every other
byte becomes a percent sign and two hex digits.  The C computes
to_hex(*pstr >> 4) on a signed char; because to_hex masks with & 15 this
equals to_hex of the unsigned byte shifted right by 4, which is what we
write here. -/
def url_encode : List Nat → List Nat
  | [] => []
  | c :: rest =>
    if isalnumB c then c :: url_encode rest
    else 37 :: to_hex (c >>> 4) :: to_hex (c &&& 15) :: url_encode rest

/-- url_decode of the source: a percent sign followed by two characters that
are not NUL decodes to the combined nibble value (truncated to a byte, as the
C assignment to char does); a percent sign with fewer than two following
characters is skipped; a plus sign decodes to a space; everything else passes
through. -/
def url_decode : List Nat → List Nat
  | [] => []
  | c :: rest =>
    if c = 37 then
      match rest with
      | a :: b :: rest2 =>
        if a ≠ 0 ∧ b ≠ 0 then
          (((from_hex a) <<< 4) ||| from_hex b) % 256 :: url_decode rest2
        else url_decode (a :: b :: rest2)
      | [a] => url_decode [a]
      | [] => []
    else if c = 43 then 32 :: url_decode rest
    else c :: url_decode rest
termination_by l => l.length
decreasing_by all_goals simp_arith

theorem to_hex_ne_zero (n : Nat) : to_hex n ≠ 0 := by
  have h : n &&& 15 < 16 := Nat.lt_of_le_of_lt Nat.and_le_right (by norm_num)
  have h2 : ∀ k : Fin 16, to_hex k.val ≠ 0 := by decide
  have h3 : to_hex (n &&& 15) = to_hex n := by
    unfold to_hex
    rw [Nat.and_assoc]
    norm_num
  rw [← h3]
  exact h2 ⟨n &&& 15, h⟩

theorem from_hex_to_hex_byte (b : Nat) (hb : b < 256) :
    (((from_hex (to_hex (b >>> 4))) <<< 4) ||| from_hex (to_hex (b &&& 15))) % 256
      = b := by
  have h : ∀ k : Fin 256,
      (((from_hex (to_hex (k.val >>> 4))) <<< 4) |||
        from_hex (to_hex (k.val &&& 15))) % 256 = k.val := by decide
  exact h ⟨b, hb⟩

theorem url_decode_nil : url_decode [] = [] := by
  rw [url_decode]

theorem url_decode_pct (a b : Nat) (ha : a ≠ 0) (hb2 : b ≠ 0) (l : List Nat) :
    url_decode (37 :: a :: b :: l) =
      (((from_hex a) <<< 4) ||| from_hex b) % 256 :: url_decode l := by
  rw [url_decode.eq_def]
  simp [ha, hb2]

theorem url_decode_plain (c : Nat) (h37 : c ≠ 37) (h43 : c ≠ 43)
    (l : List Nat) : url_decode (c :: l) = c :: url_decode l := by
  rw [url_decode.eq_def]
  simp [h37, h43]

/-- Claim C9: for every NUL-terminated byte string s, url_decode of
url_encode of s equals s.  url_encode passes alphanumeric bytes through
unchanged and replaces every other byte with a percent sign followed by two
uppercase hex digits, and url_decode inverts exactly that encoding.  The
string is modelled as a list of its byte values, all nonzero and below
256. -/
theorem c9_url_decode_encode_roundtrip (s : List Nat)
    (h : ∀ c ∈ s, 0 < c ∧ c < 256) :
    url_decode (url_encode s) = s := by
  induction s with
  | nil => exact url_decode_nil
  | cons c rest ih =>
    have hc := h c (List.mem_cons_self c rest)
    have hrest : ∀ x ∈ rest, 0 < x ∧ x < 256 :=
      fun x hx => h x (List.mem_cons_of_mem c hx)
    by_cases hal : isalnumB c = true
    · have hbounds : ((48 ≤ c ∧ c ≤ 57) ∨ (65 ≤ c ∧ c ≤ 90)) ∨
          (97 ≤ c ∧ c ≤ 122) := by
        simpa [isalnumB, Bool.or_eq_true, Bool.and_eq_true,
          decide_eq_true_eq] using hal
      have hne37 : c ≠ 37 := by omega
      have hne43 : c ≠ 43 := by omega
      simp only [url_encode, hal, if_true]
      rw [url_decode_plain c hne37 hne43, ih hrest]
    · simp only [url_encode, hal, if_false, Bool.false_eq_true]
      rw [url_decode_pct _ _ (to_hex_ne_zero _) (to_hex_ne_zero _)]
      rw [ih hrest, from_hex_to_hex_byte c hc.2]

/-- Witness for claim C9 at the concrete byte string with bytes 97, 32, 37
(the characters a, space, percent). -/
theorem c9_url_decode_encode_roundtrip_witness :
    (∀ c ∈ [97, 32, 37], 0 < c ∧ c < 256) ∧
      url_decode (url_encode [97, 32, 37]) = [97, 32, 37] :=
  ⟨by decide, c9_url_decode_encode_roundtrip [97, 32, 37] (by decide)⟩

/-! ## Download manager data model (source file: bt_download_manager.c)

The collaborators that live outside src (bt_piece.c, bt_blacklist.c,
pwp_connection.c, the peer manager and the selector) are modelled from the
spec where noted; everything else is translated from the source. -/

/-- Per-block state of a piece (spec section 3). -/
inductive BlockState
  | missing
  | requested
  | received
deriving DecidableEq

/-- A PWP block request: piece index, byte offset, length.  The length is a
C int and may be negative in malformed blocks (claim C10). -/
structure BtBlock where
  piece_idx : Nat
  offset : Nat
  len : Int
deriving DecidableEq

/-- Modelled from the spec: bt_piece.c is not under src.  A piece holds its
index, its byte length, per-block state, the set of contributing peers
(peer ids), and a flag saying whether the SHA-1 of the full data matches the
expected hash (the hash computation itself is not modelled). -/
structure BtPiece where
  idx : Nat
  len : Nat
  blocks : List BlockState
  peers : List Nat
  shaOk : Bool
deriving DecidableEq

/-- Modelled from the spec: a piece is complete when every block is RECEIVED
and the SHA-1 matches. -/
def bt_piece_is_complete (p : BtPiece) : Bool :=
  p.blocks.all (fun s => s == BlockState.received) && p.shaOk

/-- Modelled from the spec: a piece is fully requested when no block is
MISSING. -/
def bt_piece_is_fully_requested (p : BtPiece) : Bool :=
  p.blocks.all (fun s => s != BlockState.missing)

/-- Modelled from the spec: number of peers that contributed to a piece. -/
def bt_piece_num_peers (p : BtPiece) : Nat := p.peers.length

/-- Modelled from the spec: piece_poll_block_request returns the next
MISSING block, marks it REQUESTED, and selects
len = min(16384, piece.length - offset). -/
def bt_piece_poll_block_request (p : BtPiece) : BtPiece × BtBlock :=
  let i := p.blocks.findIdx (fun s => s == BlockState.missing)
  ({ p with blocks := p.blocks.set i BlockState.requested },
   { piece_idx := p.idx, offset := i * 16384,
     len := Int.ofNat (min 16384 (p.len - i * 16384)) })

/-- Modelled from the spec: piece_giveback_block flips a REQUESTED block
back to MISSING.  Block slots are addressed by offset / 16384. -/
def bt_piece_giveback_block (p : BtPiece) (b : BtBlock) : BtPiece :=
  let i := b.offset / 16384
  if p.blocks.getD i BlockState.missing == BlockState.requested then
    { p with blocks := p.blocks.set i BlockState.missing }
  else p

/-- Modelled from the spec: dropping the download progress of an invalid
piece resets every block to MISSING. -/
def bt_piece_drop_download_progress (p : BtPiece) : BtPiece :=
  { p with blocks := p.blocks.map (fun _ => BlockState.missing) }

/-- Modelled from the spec (section 4.4): bt_piece_write_block records the
block as RECEIVED and the writing peer as a contributor, then reports 2 when
the piece is complete and SHA-1 verified, -1 when complete by block count
but mismatched, 1 when accepted and still incomplete, and 0 on a write
error (the I/O outcome is an explicit argument; on error the block remains
MISSING). -/
def bt_piece_write_block (p : BtPiece) (b : BtBlock) (peer : Nat)
    (ioOk : Bool) : Int × BtPiece :=
  if !ioOk then (0, p)
  else
    let i := b.offset / 16384
    let bl := p.blocks.set i BlockState.received
    let p1 : BtPiece :=
      { p with blocks := bl,
               peers := if peer ∈ p.peers then p.peers else p.peers ++ [peer] }
    if bl.all (fun s => s == BlockState.received) then
      if p.shaOk then (2, p1) else (-1, p1)
    else (1, p1)

/-- Blacklist edge state (spec section 4.7). -/
inductive BlState
  | suspected
  | banned
deriving DecidableEq

/-- One blacklist edge: a piece index, a peer id and a state. -/
structure BlEntry where
  piece_idx : Nat
  peer : Nat
  st : BlState
deriving DecidableEq

/-- Modelled from the spec: bt_blacklist_add_peer bans the peer outright for
this piece. -/
def bt_blacklist_add_peer (bl : List BlEntry) (pieceIdx peer : Nat) :
    List BlEntry :=
  bl ++ [⟨pieceIdx, peer, BlState.banned⟩]

/-- Modelled from the spec: add_peer_as_potentially_blacklisted records a
SUSPECTED edge for the piece and peer. -/
def bt_blacklist_add_suspect (bl : List BlEntry) (pieceIdx peer : Nat) :
    List BlEntry :=
  bl ++ [⟨pieceIdx, peer, BlState.suspected⟩]

/-- Modelled from the spec: a peer is banned when it has a BANNED edge or at
least two distinct SUSPECTED pieces. -/
def bt_blacklist_peer_is_banned (bl : List BlEntry) (peer : Nat) : Bool :=
  bl.any (fun e => e.peer == peer && e.st == BlState.banned) ||
    2 ≤ (((bl.filter (fun e =>
            e.peer == peer && e.st == BlState.suspected)).map
              (fun e => e.piece_idx)).dedup).length

/-- PWP messages emitted towards a remote peer (spec section 6). -/
inductive PwpMsg
  | choke
  | unchoke
  | interested
  | notInterested
  | have (idx : Nat)
  | bitfield (bits : List Bool)
  | request (b : BtBlock)
  | cancel (b : BtBlock)
  | keepalive
deriving DecidableEq

/-- Which byte-stream handler a peer currently owns: the Handshaker before
the handshake completes, the MsgHandler afterwards.  None models the window
in bt_dm_add_peer before the handshaker is constructed. -/
inductive Mh
  | handshaker
  | msghandler
deriving DecidableEq

/-- A peer together with its peer-connection state.  The fields fold the C
bt_peer_t and the pwp_conn state the claims need: flags, the pending request
set and the outbound message stream (pwp_connection.c is not under src;
those fields are modelled from the spec, section 3). -/
structure BtPeer where
  pid : Nat
  peer_id : List Nat
  ip : List Nat
  port : Nat
  nethandle : Nat
  handshakeReceived : Bool
  failedConnection : Bool
  mh : Option Mh
  pendingRequests : List BtBlock
  peerInterested : Bool
  outMsgs : List PwpMsg
deriving DecidableEq

/-- Default peer record, used as the getD fallback in indexed statements. -/
def dfltPeer : BtPeer :=
  { pid := 0, peer_id := [], ip := [], port := 0, nethandle := 0,
    handshakeReceived := false, failedConnection := false, mh := none,
    pendingRequests := [], peerInterested := false, outMsgs := [] }

/-- Symbolic tags for the log lines the source emits. -/
inductive LogTag
  | sendBitfield
  | pieceDownloaded
  | writeError
  | disconnecting
  | cantRemovePeer
  | failedConnection
deriving DecidableEq

/-- Effects of the download manager that are not messages to one peer:
log lines, the per-peer periodic step and the choker registration. -/
inductive DmEvent
  | log (t : LogTag)
  | pcPeriodic (pid : Nat)
  | chokerAddPeer (pid : Nat)
deriving DecidableEq

/-- Calls the download manager makes into the piece selector.  The selector
implementation is pluggable and not under src; the model records the calls
and answers poll_piece from an oracle list of responses. -/
inductive SelEvent
  | havePiece (idx : Nat)
  | peerHavePiece (pid : Nat) (idx : Nat)
  | peerGiveback (pid : Option Nat) (idx : Nat)
  | polled (pid : Nat)
  | addPeer (pid : Nat)
  | removePeer (pid : Nat)
deriving DecidableEq

/-- Modelled from the spec: the pluggable selector, as seen through the
bt_pieceselector_i interface.  responses is the oracle consumed by
poll_piece; log records every interface call in order. -/
structure Selector where
  responses : List Int
  log : List SelEvent
deriving DecidableEq

def sel_have_piece (s : Selector) (idx : Nat) : Selector :=
  { s with log := s.log ++ [SelEvent.havePiece idx] }

def sel_peer_giveback (s : Selector) (pid : Option Nat) (idx : Nat) :
    Selector :=
  { s with log := s.log ++ [SelEvent.peerGiveback pid idx] }

def sel_add_peer (s : Selector) (pid : Nat) : Selector :=
  { s with log := s.log ++ [SelEvent.addPeer pid] }

def sel_remove_peer (s : Selector) (pid : Nat) : Selector :=
  { s with log := s.log ++ [SelEvent.removePeer pid] }

/-- poll_piece consumes the next oracle response; an empty oracle answers
-1 (no piece available). -/
def sel_poll_piece (s : Selector) (pid : Nat) : Selector × Int :=
  match s.responses with
  | [] => ({ s with log := s.log ++ [SelEvent.polled pid] }, -1)
  | r :: rest =>
    ({ s with responses := rest, log := s.log ++ [SelEvent.polled pid] }, r)

/-- The single job variant of the source: PollBlock carrying the peer. -/
inductive Job
  | pollblock (pid : Nat)
deriving DecidableEq

/-- The configuration keys the modelled code reads (spec section 6). -/
structure DmConfig where
  my_ip : List Nat
  pwp_listen_port : Nat
  npieces : Nat
  piece_length : Nat
  max_pending_requests : Nat
  shutdown_when_complete : Bool
deriving DecidableEq

/-- The bt_dm_private_t state: piece database, peer manager, selector,
blacklist, SparseCounter of completed pieces, job queue, seeding flag and
the externally visible event log.  hasPeerConnect models whether the host
installed the peer_connect callback. -/
structure DmState where
  cfg : DmConfig
  pdb : List BtPiece
  peers : List BtPeer
  selector : Selector
  blacklist : List BlEntry
  pieces_completed : List Nat
  jobs : List Job
  am_seeding : Bool
  events : List DmEvent
  hasPeerConnect : Bool
deriving DecidableEq

/-! ## Download manager operations -/

/-- ipdb.get_piece: look the piece up by index in the piece database. -/
def ipdb_get_piece (dm : DmState) (idx : Nat) : Option BtPiece :=
  dm.pdb.find? (fun q => q.idx == idx)

/-- get_piece on the int index returned by the selector poll. -/
def ipdb_get_piece_int (dm : DmState) (idx : Int) : Option BtPiece :=
  dm.pdb.find? (fun q => Int.ofNat q.idx == idx)

/-- Write a mutated piece back into the piece database (the C mutates the
piece in place through its pointer). -/
def setPiece (dm : DmState) (p : BtPiece) : DmState :=
  { dm with pdb := dm.pdb.map (fun q => if q.idx == p.idx then p else q) }

/-- Apply a mutation to the peer with the given id (the C mutates the peer
in place through its pointer). -/
def updatePeer (dm : DmState) (pid : Nat) (f : BtPeer → BtPeer) : DmState :=
  { dm with peers := dm.peers.map (fun q => if q.pid == pid then f q else q) }

/-- sc_mark_complete on the SparseCounter, modelled as marking the index
into the set of completed piece indices. -/
def sc_mark_complete (sc : List Nat) (idx : Nat) : List Nat :=
  if idx ∈ sc then sc else sc ++ [idx]

/-- The BITFIELD bit vector pwp_send_bitfield derives from npieces and the
SparseCounter of completed pieces. -/
def mkBitfield (n : Nat) (completed : List Nat) : List Bool :=
  (List.range n).map (fun i => completed.contains i)

/-- C strncmp(a, b, n) == 0 on NUL-free byte lists: the first n characters
agree, the end of a list acting as the NUL terminator. -/
def strncmp_eq : List Nat → List Nat → Nat → Bool
  | _, _, 0 => true
  | [], [], _ + 1 => true
  | [], _ :: _, _ + 1 => false
  | _ :: _, [], _ + 1 => false
  | x :: xs, y :: ys, n + 1 => x == y && strncmp_eq xs ys n

/-- Modelled from the spec: pwp_connection.c is not under src.  An offered
block becomes a pending REQUEST of the peer connection and the REQUEST
message is emitted (spec section 4.2, request pipelining). -/
def pwp_conn_offer_block (pc : BtPeer) (b : BtBlock) : BtPeer :=
  { pc with pendingRequests := pc.pendingRequests ++ [b],
            outMsgs := pc.outMsgs ++ [PwpMsg.request b] }

/-- Modelled from the spec: pwp_conn_send_have emits HAVE(idx) to the
peer. -/
def pwp_conn_send_have (pc : BtPeer) (idx : Nat) : BtPeer :=
  { pc with outMsgs := pc.outMsgs ++ [PwpMsg.have idx] }

/-- Modelled from the spec (section 4.6): choke_peer enqueues a CHOKE
message for the peer. -/
def pwp_conn_choke_peer (pc : BtPeer) : BtPeer :=
  { pc with outMsgs := pc.outMsgs ++ [PwpMsg.choke] }

/-- Modelled from the spec (section 4.6): unchoke_peer enqueues an UNCHOKE
message for the peer. -/
def pwp_conn_unchoke_peer (pc : BtPeer) : BtPeer :=
  { pc with outMsgs := pc.outMsgs ++ [PwpMsg.unchoke] }

/-- Source __get_drate: the body returns the literal 0, the real rate call
is commented out. -/
def iface_get_drate (_dm : DmState) (_pc : BtPeer) : Int := 0

/-- Source __get_urate: the body returns the literal 0, the real rate call
is commented out. -/
def iface_get_urate (_dm : DmState) (_pc : BtPeer) : Int := 0

/-- Source __get_is_interested: reads pwp_conn_peer_is_interested. -/
def iface_get_is_interested (pc : BtPeer) : Bool := pc.peerInterested

/-- Source __choke_peer: delegates to pwp_conn_choke_peer. -/
def iface_choke_peer (pc : BtPeer) : BtPeer := pwp_conn_choke_peer pc

/-- Source __unchoke_peer: delegates to pwp_conn_unchoke_peer. -/
def iface_unchoke_peer (pc : BtPeer) : BtPeer := pwp_conn_unchoke_peer pc

/-- Source __FUNC_peerconn_send_have: skip peers whose handshake has not
completed, send HAVE(piece idx) to the rest. -/
def peerconn_send_have_visitor (idx : Nat) (q : BtPeer) : BtPeer :=
  if !q.handshakeReceived then q else pwp_conn_send_have q idx

/-- Source __FUNC_peerconn_pushblock: write the block into the piece and
dispatch on the write result; see the claims C1 and C3.  The I/O outcome of
the underlying block write is an explicit argument. -/
def peerconn_pushblock (dm : DmState) (pid : Nat) (b : BtBlock)
    (ioOk : Bool) : DmState × Int :=
  match ipdb_get_piece dm b.piece_idx with
  | none => (dm, 1)
  | some p =>
    let wr := bt_piece_write_block p b pid ioOk
    let dm1 := setPiece dm wr.2
    if wr.1 = 2 then
      let dm2 := { dm1 with
        events := dm1.events ++ [DmEvent.log LogTag.pieceDownloaded] }
      let dm3 := { dm2 with
        selector := sel_have_piece dm2.selector b.piece_idx }
      let dm4 := { dm3 with
        pieces_completed := sc_mark_complete dm3.pieces_completed b.piece_idx }
      ({ dm4 with
         peers := dm4.peers.map (peerconn_send_have_visitor wr.2.idx) }, 1)
    else if wr.1 = 0 then
      ({ dm1 with
         events := dm1.events ++ [DmEvent.log LogTag.writeError] }, 1)
    else if wr.1 = -1 then
      if bt_piece_num_peers wr.2 = 1 then
        ({ dm1 with
           blacklist := bt_blacklist_add_peer dm1.blacklist wr.2.idx pid }, 1)
      else
        let bl := wr.2.peers.foldl
          (fun acc q => bt_blacklist_add_suspect acc wr.2.idx q) dm1.blacklist
        let p2 := bt_piece_drop_download_progress wr.2
        let dm2 := setPiece { dm1 with blacklist := bl } p2
        ({ dm2 with
           selector := sel_peer_giveback dm2.selector none p2.idx }, 1)
    else (dm1, 1)

/-- Source __FUNC_peerconn_pollblock: allocate a PollBlock job for the peer
and enqueue it through call_exclusively with __offer_job (llqueue_offer).
Nothing else of the state is touched. -/
def peerconn_pollblock (dm : DmState) (pid : Nat) : DmState × Int :=
  ({ dm with jobs := dm.jobs ++ [Job.pollblock pid] }, 0)

/-- Source __FUNC_peerconn_giveback_block: a block with negative len is
rejected up front, otherwise the block is given back to its piece and the
selector is told to give the piece back for this peer. -/
def peerconn_giveback_block (dm : DmState) (pid : Nat) (b : BtBlock) :
    DmState :=
  if b.len < 0 then dm
  else
    match ipdb_get_piece dm b.piece_idx with
    | none => dm
    | some p =>
      let dm1 := setPiece dm (bt_piece_giveback_block p b)
      { dm1 with
        selector := sel_peer_giveback dm1.selector (some pid) b.piece_idx }

/-- Source __FUNC_peerconn_peer_have_piece: forward to the selector. -/
def peerconn_peer_have_piece (dm : DmState) (pid : Nat) (idx : Nat) :
    DmState :=
  { dm with selector := { dm.selector with
      log := dm.selector.log ++ [SelEvent.peerHavePiece pid idx] } }

/-- The inner loop of __dispatch_job for a PollBlock job: while the piece is
not fully requested, poll the next block request from the piece and offer it
to the peer connection.  The loop flips one MISSING block to REQUESTED per
iteration, so a fuel of the block count is enough to reach the loop exit. -/
def dispatch_inner_go (dm : DmState) (pid : Nat) (p : BtPiece) :
    Nat → DmState × BtPiece
  | 0 => (dm, p)
  | fuel + 1 =>
    if bt_piece_is_fully_requested p then (dm, p)
    else
      let pb := bt_piece_poll_block_request p
      let dm1 := updatePeer dm pid (fun q => pwp_conn_offer_block q pb.2)
      dispatch_inner_go dm1 pid pb.1 fuel

/-- The outer while(1) loop of __dispatch_job: poll the selector for a piece
index, stop on -1, skip (and mark) already complete pieces, otherwise run
the inner request loop and stop.  Each continue consumes one selector
response, so a fuel of the response count is enough to reach the loop
exit. -/
def dispatch_pollblock_go (dm : DmState) (pid : Nat) (fuel : Nat) : DmState :=
  let sr := sel_poll_piece dm.selector pid
  let dm1 := { dm with selector := sr.1 }
  if sr.2 = -1 then dm1
  else
    match ipdb_get_piece_int dm1 sr.2 with
    | none => dm1
    | some pce =>
      if bt_piece_is_complete pce then
        let dm2 := { dm1 with selector := sel_have_piece dm1.selector pce.idx }
        match fuel with
        | 0 => dm2
        | fuel2 + 1 => dispatch_pollblock_go dm2 pid fuel2
      else
        let r := dispatch_inner_go dm1 pid pce pce.blocks.length
        setPiece r.1 r.2

/-- Source __dispatch_job on the single job variant. -/
def dispatchJob (dm : DmState) (j : Job) : DmState :=
  match j with
  | Job.pollblock pid =>
    dispatch_pollblock_go dm pid dm.selector.responses.length

/-- Source __FUNC_peer_periodic: skip peers with FAILED_CONNECTION set or
HANDSHAKE_RECEIVED unset, run pwp_conn_periodic on the rest. -/
def peer_periodic_visitor (q : BtPeer) : List DmEvent :=
  if q.failedConnection then []
  else if !q.handshakeReceived then []
  else [DmEvent.pcPeriodic q.pid]

/-- The per-peer stats record __FUNC_peer_stats_visitor fills in. -/
structure PeerStat where
  connected : Bool
  failed : Bool
deriving DecidableEq

/-- Source __FUNC_peer_stats_visitor (the rate fields are omitted from the
model). -/
def peer_stats_visitor (q : BtPeer) : PeerStat :=
  { connected := q.handshakeReceived, failed := q.failedConnection }

/-- The job drain loop of bt_dm_periodic: poll jobs under call_exclusively
until the queue is empty, dispatching each. -/
def drain_go : DmState → List Job → DmState
  | dm, [] => dm
  | dm, j :: rest => drain_go (dispatchJob dm j) rest

/-- The stats collection at the cleanup label of bt_dm_periodic. -/
def bt_dm_stats (dm : DmState) (want : Bool) : Option (List PeerStat) :=
  if want then some (dm.peers.map peer_stats_visitor) else none

/-- Source bt_dm_periodic: when seeding with shutdown_when_complete set,
jump straight to cleanup (stats); otherwise drain the job queue, run the
per-peer periodic visitor over every peer, then collect stats. -/
def bt_dm_periodic (dm : DmState) (wantStats : Bool) :
    DmState × Option (List PeerStat) :=
  if dm.am_seeding && dm.cfg.shutdown_when_complete then
    (dm, bt_dm_stats dm wantStats)
  else
    let d1 := drain_go { dm with jobs := [] } dm.jobs
    let d2 := { d1 with
      events := d1.events ++ d1.peers.flatMap peer_periodic_visitor }
    (d2, bt_dm_stats d2 wantStats)

/-- Source bt_dm_remove_peer: remove from the peer manager (failure is
logged and reported), then remove from the selector. -/
def bt_dm_remove_peer (dm : DmState) (pid : Nat) : DmState × Nat :=
  if dm.peers.any (fun q => q.pid == pid) then
    let dm1 := { dm with peers := dm.peers.filter (fun q => q.pid != pid) }
    ({ dm1 with selector := sel_remove_peer dm1.selector pid }, 1)
  else
    ({ dm with events := dm.events ++ [DmEvent.log LogTag.cantRemovePeer] }, 0)

/-- Source bt_dm_dispatch_from_buffer.  The outcomes of the external
Handshaker (1 done, 0 need more, negative invalid), of peer_send and of the
MsgHandler parse are explicit oracle arguments, since those components are
not under src.  On handshake completion the handshaker is replaced by a
fresh MsgHandler, HANDSHAKE_RECEIVED is set and the BITFIELD derived from
the SparseCounter is sent; a failed send or a failed parse removes the
peer. -/
def bt_dm_dispatch_from_buffer (dm : DmState) (nh : Nat) (hsResult : Int)
    (sendOk : Bool) (msgOk : Bool) : DmState × Nat :=
  match dm.peers.find? (fun q => q.nethandle == nh) with
  | none => (dm, 0)
  | some peer =>
    if !peer.handshakeReceived && hsResult ≠ 1 then (dm, 0)
    else
      let dm1 :=
        if !peer.handshakeReceived then
          let dmA := updatePeer dm peer.pid (fun q =>
            { q with mh := some Mh.msghandler, handshakeReceived := true })
          let dmB := { dmA with
            events := dmA.events ++ [DmEvent.log LogTag.sendBitfield] }
          if sendOk then
            updatePeer dmB peer.pid (fun q =>
              { q with outMsgs := q.outMsgs ++
                  [PwpMsg.bitfield
                    (mkBitfield dmB.cfg.npieces dmB.pieces_completed)] })
          else (bt_dm_remove_peer dmB peer.pid).1
        else dm
      if msgOk then (dm1, 1)
      else
        let dm2 := { dm1 with
          events := dm1.events ++ [DmEvent.log LogTag.disconnecting] }
        ((bt_dm_remove_peer dm2 peer.pid).1, 1)

/-- Modelled from the spec: bt_peermanager_add_peer rejects a duplicate of
an already added (ip, port) pair and otherwise creates the peer record with
the default connection flags. -/
def bt_peermanager_add_peer (peers : List BtPeer) (peer_id : List Nat)
    (peer_id_len : Nat) (ip : List Nat) (ip_len : Nat) (port : Nat)
    (newPid : Nat) : Option BtPeer :=
  if peers.any (fun q => q.ip == ip.take ip_len && q.port == port) then none
  else some { pid := newPid, peer_id := peer_id.take peer_id_len,
              ip := ip.take ip_len, port := port, nethandle := 0,
              handshakeReceived := false, failedConnection := false,
              mh := none, pendingRequests := [], peerInterested := false,
              outMsgs := [] }

/-- Source bt_dm_add_peer: refuse a peer that matches (my_ip,
pwp_listen_port) by strncmp over ip_len characters; refuse a peer-manager
duplicate; otherwise register the peer with the peer manager, the selector
and the choker, optionally store the given nethandle, start an outbound
connect when no nethandle was given (its outcome is the connectOk oracle),
and construct the handshaker.  The fresh peer id stands for the new peer
pointer. -/
def bt_dm_add_peer (dm : DmState) (peer_id : List Nat) (peer_id_len : Nat)
    (ip : List Nat) (ip_len : Nat) (port : Nat) (nethandle : Option Nat)
    (newPid : Nat) (connectOk : Bool) : Option Nat × DmState :=
  if strncmp_eq ip dm.cfg.my_ip ip_len && port == dm.cfg.pwp_listen_port then
    (none, dm)
  else
    match bt_peermanager_add_peer dm.peers peer_id peer_id_len ip ip_len
        port newPid with
    | none => (none, dm)
    | some p0 =>
      let p := match nethandle with
               | some nhv => { p0 with nethandle := nhv }
               | none => p0
      let dm1 := { dm with peers := dm.peers ++ [p],
                           selector := sel_add_peer dm.selector p.pid }
      if !dm.hasPeerConnect then (none, dm1)
      else if nethandle.isNone && !connectOk then
        (none, { dm1 with
          events := dm1.events ++ [DmEvent.log LogTag.failedConnection] })
      else
        let dm2 := updatePeer dm1 p.pid
          (fun q => { q with mh := some Mh.handshaker })
        let dm3 := { dm2 with
          events := dm2.events ++ [DmEvent.chokerAddPeer p.pid] }
        (some p.pid, dm3)

/-! ## Example states for witnesses and counterexamples -/

/-- A small configuration: my_ip is the byte string 10.0.0.1, listen port
6881, two pieces of 32768 bytes, a pipeline ceiling of 1. -/
def baseCfg : DmConfig :=
  { my_ip := [49, 48, 46, 48, 46, 48, 46, 49], pwp_listen_port := 6881,
    npieces := 2, piece_length := 32768, max_pending_requests := 1,
    shutdown_when_complete := false }

/-- An empty download manager over baseCfg. -/
def baseDm : DmState :=
  { cfg := baseCfg, pdb := [], peers := [],
    selector := { responses := [], log := [] }, blacklist := [],
    pieces_completed := [], jobs := [], am_seeding := false, events := [],
    hasPeerConnect := true }

/-! ## Claims -/

/-- Claim C10: a giveback_block call with a negative block length returns
immediately and leaves the whole download manager state unchanged. -/
theorem c10_giveback_negative_len (dm : DmState) (pid : Nat) (b : BtBlock)
    (h : b.len < 0) : peerconn_giveback_block dm pid b = dm := by
  unfold peerconn_giveback_block
  rw [if_pos h]

/-- Witness for claim C10 at a concrete block of length -1. -/
theorem c10_giveback_negative_len_witness :
    peerconn_giveback_block baseDm 1
      { piece_idx := 0, offset := 0, len := -1 } = baseDm :=
  c10_giveback_negative_len baseDm 1
    { piece_idx := 0, offset := 0, len := -1 } (by decide)

/-- Claim C8: the choker-peer interface getters get_drate and get_urate
return 0 for every state; get_is_interested only reads the interest flag of
the peer connection; choke_peer and unchoke_peer change the peer connection
only by appending a CHOKE resp. UNCHOKE message to its outbound stream. -/
theorem c8_choker_peer_iface (dm : DmState) (pc : BtPeer) :
    iface_get_drate dm pc = 0 ∧ iface_get_urate dm pc = 0 ∧
    iface_get_is_interested pc = pc.peerInterested ∧
    iface_choke_peer pc =
      { pc with outMsgs := pc.outMsgs ++ [PwpMsg.choke] } ∧
    iface_unchoke_peer pc =
      { pc with outMsgs := pc.outMsgs ++ [PwpMsg.unchoke] } :=
  ⟨rfl, rfl, rfl, rfl, rfl⟩

/-- Claim C7: the pollblock callback installed into every peer connection
only appends a PollBlock job to the job queue and changes nothing else (in
particular it never reads or mutates the selector); selector polling for
that job happens only inside the job drain of periodic: after the drain the
remaining phases of a periodic tick leave the selector unchanged, and the
seeding shutdown path never touches it. -/
theorem c7_pollblock_deferred (dm : DmState) (pid : Nat) (w : Bool) :
    peerconn_pollblock dm pid =
      ({ dm with jobs := dm.jobs ++ [Job.pollblock pid] }, 0) ∧
    (¬(dm.am_seeding = true ∧ dm.cfg.shutdown_when_complete = true) →
      (bt_dm_periodic dm w).1.selector =
        (drain_go { dm with jobs := [] } dm.jobs).selector) ∧
    ((dm.am_seeding = true ∧ dm.cfg.shutdown_when_complete = true) →
      (bt_dm_periodic dm w).1.selector = dm.selector) := by
  refine ⟨rfl, ?_, ?_⟩
  · intro h
    have hb : ¬((dm.am_seeding && dm.cfg.shutdown_when_complete) = true) := by
      rw [Bool.and_eq_true]
      exact fun hx => h hx
    unfold bt_dm_periodic
    rw [if_neg hb]
  · intro h
    have hb : (dm.am_seeding && dm.cfg.shutdown_when_complete) = true := by
      rw [Bool.and_eq_true]
      exact h
    unfold bt_dm_periodic
    rw [if_pos hb]

/-- Witness for claim C7 at the empty download manager. -/
theorem c7_pollblock_deferred_witness :
    peerconn_pollblock baseDm 4 =
      ({ baseDm with jobs := [Job.pollblock 4] }, 0) ∧
    (bt_dm_periodic baseDm false).1.selector =
      (drain_go { baseDm with jobs := [] } baseDm.jobs).selector := by
  have h := c7_pollblock_deferred baseDm 4 false
  exact ⟨h.1, h.2.1 (by decide)⟩

/-- The C1 failing input: a piece one block away from completion, with a
SHA-1 mismatch, whose single contributor is peer 7. -/
def c1piece : BtPiece :=
  { idx := 0, len := 32768,
    blocks := [BlockState.received, BlockState.missing],
    peers := [7], shaOk := false }

/-- Download manager holding only the C1 piece. -/
def c1dm : DmState := { baseDm with pdb := [c1piece] }

/-- The final block of the C1 piece. -/
def c1blk : BtBlock := { piece_idx := 0, offset := 16384, len := 16384 }

/-- Claim C1 (code bug evidence): a piece completed by a single contributing
peer with a SHA-1 mismatch.  The pushblock callback bans that peer but,
against the claim and spec scenario 7, does not drop the download progress
(the blocks stay RECEIVED instead of returning to MISSING) and never tells
the selector to give the piece back. -/
theorem c1_single_contributor_piece_not_reset :
    (peerconn_pushblock c1dm 7 c1blk true).1.blacklist =
      [⟨0, 7, BlState.banned⟩] ∧
    (ipdb_get_piece (peerconn_pushblock c1dm 7 c1blk true).1 0).map
      (fun p => p.blocks) =
      some [BlockState.received, BlockState.received] ∧
    (peerconn_pushblock c1dm 7 c1blk true).1.selector.log = [] := by decide

/-- The C2 failing input: a piece with two MISSING blocks, one idle peer and
a selector that answers piece 0, under a pipeline ceiling of 1. -/
def c2dm : DmState :=
  { baseDm with
    pdb := [{ idx := 0, len := 32768,
              blocks := [BlockState.missing, BlockState.missing],
              peers := [], shaOk := true }],
    peers := [{ dfltPeer with pid := 3 }],
    selector := { responses := [0], log := [] } }

/-- Claim C2 (code bug evidence): with max_pending_requests = 1 and a piece
with two MISSING blocks, dispatching one PollBlock job offers both blocks to
the peer connection: the dispatch loop only stops when the piece is fully
requested, so the pending REQUEST count reaches 2 and exceeds the
ceiling. -/
theorem c2_dispatch_ignores_ceiling :
    c2dm.cfg.max_pending_requests = 1 ∧
    (((dispatchJob c2dm (Job.pollblock 3)).peers.find?
      (fun q => q.pid == 3)).map (fun q => q.pendingRequests.length)) =
      some 2 := by decide

theorem bt_piece_write_block_idx (p : BtPiece) (b : BtBlock) (peer : Nat)
    (io : Bool) : (bt_piece_write_block p b peer io).2.idx = p.idx := by
  unfold bt_piece_write_block
  split
  · rfl
  · dsimp only
    split
    · split <;> rfl
    · rfl

theorem getD_map_of_lt (l : List BtPeer) (f : BtPeer → BtPeer) (i : Nat)
    (hi : i < l.length) : (l.map f).getD i dfltPeer = f (l.getD i dfltPeer) := by
  rw [List.getD_eq_getElem?_getD, List.getD_eq_getElem?_getD,
    List.getElem?_map, List.getElem?_eq_getElem hi]
  rfl

/-- Claim C3: when the write of a pushed block reports 2 (piece complete and
SHA-1 verified), the pushblock callback marks the index complete in the
SparseCounter, notifies the selector with have_piece(idx), and sends exactly
one HAVE(idx) to every peer with HANDSHAKE_RECEIVED set and none to any peer
whose handshake has not completed. -/
theorem c3_piece_complete_have_broadcast (dm : DmState) (pid : Nat)
    (b : BtBlock) (io : Bool) (p0 : BtPiece)
    (hget : ipdb_get_piece dm b.piece_idx = some p0)
    (hw : (bt_piece_write_block p0 b pid io).1 = 2) :
    (peerconn_pushblock dm pid b io).1.pieces_completed =
      sc_mark_complete dm.pieces_completed b.piece_idx ∧
    (peerconn_pushblock dm pid b io).1.selector.log =
      dm.selector.log ++ [SelEvent.havePiece b.piece_idx] ∧
    (peerconn_pushblock dm pid b io).1.peers.length = dm.peers.length ∧
    ∀ i, i < dm.peers.length →
      ((peerconn_pushblock dm pid b io).1.peers.getD i dfltPeer).outMsgs.count
          (PwpMsg.have b.piece_idx) =
        ((dm.peers.getD i dfltPeer).outMsgs.count (PwpMsg.have b.piece_idx)) +
          (if (dm.peers.getD i dfltPeer).handshakeReceived then 1 else 0) := by
  have hidx0 : p0.idx = b.piece_idx := by
    have hf := List.find?_some hget
    simpa using hf
  have hidx : (bt_piece_write_block p0 b pid io).2.idx = b.piece_idx := by
    rw [bt_piece_write_block_idx, hidx0]
  unfold peerconn_pushblock
  rw [hget]
  dsimp only
  rw [if_pos hw]
  refine ⟨rfl, rfl, by simp [List.length_map, setPiece], ?_⟩
  intro i hi
  have hpeers : (setPiece dm (bt_piece_write_block p0 b pid io).2).peers
      = dm.peers := rfl
  dsimp only
  rw [hpeers, getD_map_of_lt dm.peers _ i hi]
  unfold peerconn_send_have_visitor
  by_cases hq : (dm.peers.getD i dfltPeer).handshakeReceived
  · rw [hq]
    simp only [Bool.not_true, Bool.false_eq_true, if_false, if_pos rfl]
    unfold pwp_conn_send_have
    rw [hidx]
    simp [List.count_append]
  · have hq2 : (dm.peers.getD i dfltPeer).handshakeReceived = false := by
      revert hq
      cases (dm.peers.getD i dfltPeer).handshakeReceived <;> simp
    rw [hq2]
    simp

/-- The C3 witness input: one piece awaiting its final block with a good
hash, one peer with a completed handshake and one without. -/
def c3p0 : BtPiece :=
  { idx := 0, len := 32768,
    blocks := [BlockState.received, BlockState.missing],
    peers := [], shaOk := true }

/-- Download manager for the C3 witness. -/
def c3dm : DmState :=
  { baseDm with
    pdb := [c3p0],
    peers := [{ dfltPeer with pid := 1, handshakeReceived := true },
              { dfltPeer with pid := 2 }] }

/-- The final block of the C3 piece. -/
def c3blk : BtBlock := { piece_idx := 0, offset := 16384, len := 16384 }

/-- Witness for claim C3: peer 1 (handshaked) receives exactly one HAVE(0),
peer 2 (no handshake yet) receives none, the SparseCounter gains index 0 and
the selector sees have_piece(0). -/
theorem c3_piece_complete_have_broadcast_witness :
    (peerconn_pushblock c3dm 1 c3blk true).1.pieces_completed = [0] ∧
    (peerconn_pushblock c3dm 1 c3blk true).1.selector.log =
      [SelEvent.havePiece 0] ∧
    ((peerconn_pushblock c3dm 1 c3blk true).1.peers.getD 0
      dfltPeer).outMsgs.count (PwpMsg.have c3blk.piece_idx) = 1 ∧
    ((peerconn_pushblock c3dm 1 c3blk true).1.peers.getD 1
      dfltPeer).outMsgs.count (PwpMsg.have c3blk.piece_idx) = 0 := by
  have h := c3_piece_complete_have_broadcast c3dm 1 c3blk true c3p0
    (by decide) (by decide)
  refine ⟨?_, ?_, ?_, ?_⟩
  · rw [h.1]
    decide
  · rw [h.2.1]
    decide
  · rw [h.2.2.2 0 (by decide)]
    decide
  · rw [h.2.2.2 1 (by decide)]
    decide

theorem dispatch_inner_go_jobs (pid : Nat) (fuel : Nat) :
    ∀ (dm : DmState) (p : BtPiece),
      (dispatch_inner_go dm pid p fuel).1.jobs = dm.jobs := by
  induction fuel with
  | zero => intro dm p; rfl
  | succ n ih =>
    intro dm p
    unfold dispatch_inner_go
    split
    · rfl
    · rw [ih]
      rfl

theorem dispatch_pollblock_go_jobs (pid : Nat) (fuel : Nat) :
    ∀ dm : DmState, (dispatch_pollblock_go dm pid fuel).jobs = dm.jobs := by
  induction fuel with
  | zero =>
    intro dm
    rw [dispatch_pollblock_go]
    dsimp only
    split
    · rfl
    · split
      · rfl
      · split
        · rfl
        · exact dispatch_inner_go_jobs _ _ _ _
  | succ n ih =>
    intro dm
    rw [dispatch_pollblock_go]
    dsimp only
    split
    · rfl
    · split
      · rfl
      · split
        · exact ih _
        · exact dispatch_inner_go_jobs _ _ _ _

theorem dispatchJob_jobs (dm : DmState) (j : Job) :
    (dispatchJob dm j).jobs = dm.jobs := by
  cases j with
  | pollblock pid => exact dispatch_pollblock_go_jobs pid _ dm

theorem drain_go_jobs (js : List Job) :
    ∀ dm : DmState, (drain_go dm js).jobs = dm.jobs := by
  induction js with
  | nil => intro dm; rfl
  | cons j rest ih =>
    intro dm
    unfold drain_go
    rw [ih, dispatchJob_jobs]

/-- The C4 counterexample input: one peer whose handshake has not completed,
download manager not seeding. -/
def c4dm : DmState :=
  { baseDm with peers := [{ dfltPeer with pid := 1 }] }

/-- Counterexample to claim C4 as stated: a periodic tick does not call
pc.periodic() for every peer in the peer manager; the visitor skips the peer
with HANDSHAKE_RECEIVED unset, so no pcPeriodic step for peer 1 appears. -/
theorem c4_periodic_counterexample :
    ¬ DmEvent.pcPeriodic 1 ∈ (bt_dm_periodic c4dm false).1.events := by decide

/-- Claim C4 (amended): when am_seeding and shutdown_when_complete are both
set, periodic drains no jobs and runs no per-peer periodic step (the state
is returned unchanged, with stats still collected); otherwise it first
drains every queued job, leaving the queue empty, then appends the per-peer
periodic events, where pc.periodic() runs exactly for the peers with
HANDSHAKE_RECEIVED set and FAILED_CONNECTION clear, then collects stats from
the resulting state. -/
theorem c4_periodic_structure (dm : DmState) (w : Bool) :
    ((dm.am_seeding = true ∧ dm.cfg.shutdown_when_complete = true) →
      bt_dm_periodic dm w = (dm, bt_dm_stats dm w)) ∧
    (¬(dm.am_seeding = true ∧ dm.cfg.shutdown_when_complete = true) →
      (bt_dm_periodic dm w).1.jobs = [] ∧
      (bt_dm_periodic dm w).1.events =
        (drain_go { dm with jobs := [] } dm.jobs).events ++
          ((drain_go { dm with jobs := [] } dm.jobs).peers.flatMap
            peer_periodic_visitor) ∧
      (∀ q : BtPeer, peer_periodic_visitor q =
        if q.failedConnection = false ∧ q.handshakeReceived = true
        then [DmEvent.pcPeriodic q.pid] else []) ∧
      (bt_dm_periodic dm w).2 = bt_dm_stats (bt_dm_periodic dm w).1 w) := by
  constructor
  · intro h
    have hb : (dm.am_seeding && dm.cfg.shutdown_when_complete) = true := by
      rw [Bool.and_eq_true]
      exact h
    unfold bt_dm_periodic
    rw [if_pos hb]
  · intro h
    have hb : ¬((dm.am_seeding && dm.cfg.shutdown_when_complete) = true) := by
      rw [Bool.and_eq_true]
      exact fun hx => h hx
    refine ⟨?_, ?_, ?_, ?_⟩
    · unfold bt_dm_periodic
      rw [if_neg hb]
      dsimp only
      exact drain_go_jobs dm.jobs _
    · unfold bt_dm_periodic
      rw [if_neg hb]
    · intro q
      unfold peer_periodic_visitor
      by_cases hf : q.failedConnection <;>
        by_cases hh : q.handshakeReceived <;> simp [hf, hh]
    · unfold bt_dm_periodic
      rw [if_neg hb]

/-- Seeding download manager with shutdown_when_complete set, for the C4
witness. -/
def c4scfg : DmConfig := { baseCfg with shutdown_when_complete := true }

/-- Seeding state over c4scfg. -/
def c4sdm : DmState := { baseDm with am_seeding := true, cfg := c4scfg }

/-- Non-seeding download manager with one handshaked peer, for the C4
witness. -/
def c4wdm : DmState :=
  { baseDm with
    peers := [{ dfltPeer with pid := 5, handshakeReceived := true }] }

/-- Witness for claim C4: the seeding shutdown state passes through
unchanged, and a normal tick on one handshaked peer leaves no jobs and emits
exactly its pcPeriodic step. -/
theorem c4_periodic_structure_witness :
    bt_dm_periodic c4sdm false = (c4sdm, none) ∧
    (bt_dm_periodic c4wdm true).1.jobs = [] ∧
    (bt_dm_periodic c4wdm true).1.events = [DmEvent.pcPeriodic 5] := by
  have h1 := (c4_periodic_structure c4sdm false).1 (by decide)
  have h2 := (c4_periodic_structure c4wdm true).2 (by decide)
  refine ⟨?_, h2.1, ?_⟩
  · rw [h1]
    decide
  · rw [h2.2.1]
    decide

/-- Claim C5: when bytes arrive for a peer whose HANDSHAKE_RECEIVED flag is
unset and the Handshaker signals completion (returns 1), the handshaker is
replaced by a freshly constructed MsgHandler, the flag is set on the peer
connection, and the BITFIELD derived from the SparseCounter of completed
pieces is sent to that peer (and only to that peer); the send and parse
oracles are taken successful. -/
theorem c5_handshake_completion (dm : DmState) (nh : Nat) (q0 : BtPeer)
    (hfind : dm.peers.find? (fun q => q.nethandle == nh) = some q0)
    (hhs : q0.handshakeReceived = false) :
    (bt_dm_dispatch_from_buffer dm nh 1 true true).2 = 1 ∧
    (bt_dm_dispatch_from_buffer dm nh 1 true true).1.events =
      dm.events ++ [DmEvent.log LogTag.sendBitfield] ∧
    (bt_dm_dispatch_from_buffer dm nh 1 true true).1.peers.length =
      dm.peers.length ∧
    ∀ i, i < dm.peers.length →
      (bt_dm_dispatch_from_buffer dm nh 1 true true).1.peers.getD i dfltPeer =
        (if (dm.peers.getD i dfltPeer).pid == q0.pid then
          { dm.peers.getD i dfltPeer with
            mh := some Mh.msghandler, handshakeReceived := true,
            outMsgs := (dm.peers.getD i dfltPeer).outMsgs ++
              [PwpMsg.bitfield
                (mkBitfield dm.cfg.npieces dm.pieces_completed)] }
         else dm.peers.getD i dfltPeer) := by
  unfold bt_dm_dispatch_from_buffer
  rw [hfind]
  dsimp only
  rw [hhs]
  rw [if_neg (by decide)]
  rw [if_pos (by decide)]
  rw [if_pos (by decide)]
  rw [if_pos (by decide)]
  refine ⟨rfl, rfl, by simp [updatePeer, List.length_map], ?_⟩
  intro i hi
  unfold updatePeer
  dsimp only
  have hi2 : i < (dm.peers.map (fun q =>
      if q.pid == q0.pid then
        { q with mh := some Mh.msghandler, handshakeReceived := true }
      else q)).length := by
    rw [List.length_map]
    exact hi
  rw [getD_map_of_lt _ _ i hi2, getD_map_of_lt _ _ i hi]
  by_cases hp : (dm.peers.getD i dfltPeer).pid == q0.pid
  · rw [if_pos hp, if_pos hp, if_pos hp]
  · rw [if_neg hp, if_neg hp, if_neg hp]

/-- The C5 witness peer: handshake pending, nethandle 42. -/
def c5peer : BtPeer :=
  { dfltPeer with pid := 9, nethandle := 42, mh := some Mh.handshaker }

/-- The C5 witness state: piece 1 of 2 already complete, one pre-handshake
peer. -/
def c5dm : DmState :=
  { baseDm with pieces_completed := [1], peers := [c5peer] }

/-- Witness for claim C5: after the handshaker reports completion the peer
owns a MsgHandler, has HANDSHAKE_RECEIVED set, and received the BITFIELD
bit vector false-true derived from the completed piece set. -/
theorem c5_handshake_completion_witness :
    (bt_dm_dispatch_from_buffer c5dm 42 1 true true).2 = 1 ∧
    (bt_dm_dispatch_from_buffer c5dm 42 1 true true).1.events =
      [DmEvent.log LogTag.sendBitfield] ∧
    ((bt_dm_dispatch_from_buffer c5dm 42 1 true true).1.peers.getD 0
      dfltPeer).handshakeReceived = true ∧
    ((bt_dm_dispatch_from_buffer c5dm 42 1 true true).1.peers.getD 0
      dfltPeer).mh = some Mh.msghandler ∧
    ((bt_dm_dispatch_from_buffer c5dm 42 1 true true).1.peers.getD 0
      dfltPeer).outMsgs = [PwpMsg.bitfield [false, true]] := by
  have h := c5_handshake_completion c5dm 42 c5peer (by decide) (by decide)
  have h4 := h.2.2.2 0 (by decide)
  refine ⟨h.1, ?_, ?_, ?_, ?_⟩
  · rw [h.2.1]
    decide
  · rw [h4]
    decide
  · rw [h4]
    decide
  · rw [h4]
    decide

theorem strncmp_eq_self (a : List Nat) : strncmp_eq a a a.length = true := by
  induction a with
  | nil => rfl
  | cons x xs ih => simp [strncmp_eq, ih]

/-- Claim C6: add_peer refuses (returns null, registering nothing and
leaving the state untouched) when the given (ip, port) equals the configured
(my_ip, pwp_listen_port) with ip_len the full ip length, and likewise when
the peer manager already holds a peer with the same (ip, port). -/
theorem c6_add_peer_refusals (dm : DmState) (peer_id : List Nat)
    (peer_id_len : Nat) (ip : List Nat) (ip_len : Nat) (port : Nat)
    (nethandle : Option Nat) (newPid : Nat) (connectOk : Bool) :
    ((ip = dm.cfg.my_ip ∧ ip_len = ip.length ∧
        port = dm.cfg.pwp_listen_port) →
      bt_dm_add_peer dm peer_id peer_id_len ip ip_len port nethandle newPid
        connectOk = (none, dm)) ∧
    ((∃ q ∈ dm.peers, q.ip = ip.take ip_len ∧ q.port = port) →
      bt_dm_add_peer dm peer_id peer_id_len ip ip_len port nethandle newPid
        connectOk = (none, dm)) := by
  constructor
  · rintro ⟨h1, h2, h3⟩
    unfold bt_dm_add_peer
    rw [if_pos]
    rw [Bool.and_eq_true]
    constructor
    · rw [h2, h1]
      exact strncmp_eq_self dm.cfg.my_ip
    · rw [h3]
      simp
  · rintro ⟨q, hq, hip, hport⟩
    unfold bt_dm_add_peer
    by_cases hself : (strncmp_eq ip dm.cfg.my_ip ip_len &&
        port == dm.cfg.pwp_listen_port) = true
    · rw [if_pos hself]
    · rw [if_neg hself]
      have hpm : bt_peermanager_add_peer dm.peers peer_id peer_id_len ip
          ip_len port newPid = none := by
        unfold bt_peermanager_add_peer
        rw [if_pos]
        exact List.any_eq_true.mpr ⟨q, hq, by simp [hip, hport]⟩
      rw [hpm]

/-- Peer manager holding a peer at ip bytes 1.2 and port 5, for the C6
witness. -/
def c6dm : DmState :=
  { baseDm with peers := [{ dfltPeer with ip := [1, 2], port := 5 }] }

/-- Witness for claim C6: adding 10.0.0.1:6881 (which is my_ip and the
listen port) to the empty manager is refused, and adding the already known
ip 1.2 port 5 to c6dm is refused; both leave the state unchanged. -/
theorem c6_add_peer_refusals_witness :
    bt_dm_add_peer baseDm [] 0 [49, 48, 46, 48, 46, 48, 46, 49] 8 6881 none
      3 true = (none, baseDm) ∧
    bt_dm_add_peer c6dm [] 0 [1, 2] 2 5 none 3 true = (none, c6dm) := by
  constructor
  · exact (c6_add_peer_refusals baseDm [] 0
      [49, 48, 46, 48, 46, 48, 46, 49] 8 6881 none 3 true).1
      ⟨by decide, by decide, by decide⟩
  · exact (c6_add_peer_refusals c6dm [] 0 [1, 2] 2 5 none 3 true).2
      ⟨{ dfltPeer with ip := [1, 2], port := 5 }, by decide, by decide,
        by decide⟩
